import Mathlib

/-!
Verification development for `jam_session.py`, a batch wrapper around the
external pbjam peak-bagging library.  The script ingests a table of stars,
resolves a light curve for each row (local file, pre-supplied power
spectrum, in-memory series, or remote fetch), converts series to
periodograms, and runs the external fit per star, isolating per-star
failures in a module-level failure ledger (`failed_lk_query`).

The embedding below is shallow: pandas DataFrames become association lists
from integer index labels to records, numeric values become `Int`, Python
exceptions become explicit `Except`/`Option` results, and the external
collaborators (numpy, lightkurve, pandas converters, the pbjam fit) become
oracle parameters constrained only by their documented contracts.
-/

namespace JamSession

/-- An in-memory time series (the lightkurve LightCurve object): a list of
(time, flux) samples.  Numeric values are modelled as `Int`. -/
structure Series where
  points : List (Int × Int)
deriving DecidableEq, Repr

/-- A power spectrum: a list of (frequency, power) samples. -/
abbrev Spectrum := List (Int × Int)

/-- Runtime shape of the `timeseries` cell of a row, as probed by
`lc_to_lk`: a file-path string, a falsy value (None; Python truthiness),
an object from the lightkurve lightcurve module, or any other
(truthy, unrecognized) object. -/
inductive TSField
  | str (path : String)
  | empty
  | lightcurve (lc : Series)
  | other
deriving DecidableEq, Repr

/-- One row of the input table.  Column set from the script header:
ID, numax(+err), dnu(+err), teff(+err), bp_rp(+err), optional timeseries
and psd, optional observation-context columns.  `psd` is `some` when a
power spectrum value is present (truthy) and `none` when absent. -/
structure StarRecord where
  ID : String
  numax : Int
  numax_err : Int
  dnu : Int
  dnu_err : Int
  teff : Int
  teff_err : Int
  bp_rp : Int
  bp_rp_err : Int
  timeseries : TSField
  psd : Option Spectrum
  cadence : Option String
  campaign : Option String
  sector : Option String
  month : Option String
  quarter : Option String
  mission : Option String
deriving DecidableEq, Repr

/-- The dict `D` built from the observation-context columns and passed to
`query_lightkurve`. -/
structure Ctx where
  cadence : Option String
  month : Option String
  sector : Option String
  campaign : Option String
  quarter : Option String
  mission : Option String
deriving DecidableEq, Repr

/-- Build the query context dict from a row (source line 54). -/
def ctxOf (r : StarRecord) : Ctx :=
  ⟨r.cadence, r.month, r.sector, r.campaign, r.quarter, r.mission⟩

/-- Key of a `failed_lk_query` ledger row.  Resolver entries are keyed by
the star identifier; the fit-failure handler writes at the bare name `id`,
which in the scope of `jam.__call__` resolves to the Python builtin
function `id`, a single non-identifier key. -/
inductive LedgerKey
  | ident (s : String)
  | builtinId
deriving DecidableEq, Repr

/-- The `failed_lk_query` DataFrame: rows keyed by `LedgerKey` with one
error-message column. -/
abbrev Ledger := List (LedgerKey × String)

/-- `df.at[key, error] = v` semantics: overwrite the row if the key
exists, otherwise append a new row. -/
def ledgerSet (L : Ledger) (k : LedgerKey) (v : String) : Ledger :=
  if L.any (fun p => p.1 = k) then
    L.map (fun p => if p.1 = k then (k, v) else p)
  else
    L ++ [(k, v)]

/-- Python exceptions that escape the wrapper uncaught. -/
inductive PyError
  | unboundLocalError
  | keyError
  | indexError
  | typeError (msg : String)
  | ioError (msg : String)
deriving DecidableEq, Repr

/-- Python truthiness of a `timeseries` cell (`not vardf.loc[i, key]`):
None is falsy, a string is truthy iff non-empty, a lightcurve object is
truthy iff non-empty (LightCurve defines a length), an unrecognized
object is modelled as truthy. -/
def truthyTS : TSField → Bool
  | .str s => !s.isEmpty
  | .empty => false
  | .lightcurve lc => !lc.points.isEmpty
  | .other => true

/-- Ordering of samples by their timestamp (first component). -/
def byTime (a b : Int × Int) : Prop := a.1 ≤ b.1

instance : DecidableRel byTime := fun a b => inferInstanceAs (Decidable (a.1 ≤ b.1))

instance : IsTotal (Int × Int) byTime := ⟨fun a b => Int.le_total a.1 b.1⟩

instance : IsTrans (Int × Int) byTime := ⟨fun _ _ _ h1 h2 => le_trans h1 h2⟩

/-- `pbjam.session.sort_lc`: sort a series ascending by timestamp
(external collaborator; contract from spec section 4.2). -/
def sortSeries (s : Series) : Series :=
  ⟨List.insertionSort byTime s.points⟩

/-- In-place sort of the cell value: only lightcurve objects ever reach
`sort_lc` here (the str branch has already replaced the cell). -/
def sortTS : TSField → TSField
  | .lightcurve lc => .lightcurve (sortSeries lc)
  | t => t

/-- `vardf.loc[i, key]`: label-based lookup of row `i`. -/
def lookupRow : List (Nat × StarRecord) → Nat → Option StarRecord
  | [], _ => none
  | p :: rest, i => if p.1 = i then some p.2 else lookupRow rest i

/-- `vardf.at[i, key] = r`: write the row stored at label `i`. -/
def dfSet : List (Nat × StarRecord) → Nat → StarRecord → List (Nat × StarRecord)
  | [], _, _ => []
  | p :: rest, i, r => if p.1 = i then (i, r) :: dfSet rest i r else p :: dfSet rest i r

/-- `vardf.drop(i)`: remove the row with label `i`, preserving the order
(and the labels) of the remaining rows. -/
def dfDrop : List (Nat × StarRecord) → Nat → List (Nat × StarRecord)
  | [], _ => []
  | p :: rest, i => if p.1 = i then dfDrop rest i else p :: dfDrop rest i

/-- `vardf.reset_index()`: relabel the surviving rows contiguously from 0. -/
def resetIndex (df : List (Nat × StarRecord)) : List (Nat × StarRecord) :=
  (df.map Prod.snd).enum

/-- Console message printed when a lightkurve query fails (source
lines 62-63). -/
def queryFailMsg (id : String) (exc : String) : String :=
  "Lightkurve query failed on " ++ id ++ " due to:\n" ++ exc ++
    "\nThis target will be removed from the sample."

/-- State threaded through `lc_to_lk`: the DataFrame, the module-level
`failed_lk_query` ledger, the console log, and the list of
`query_lightkurve` invocations (label, identifier) for instrumentation. -/
structure RState where
  df : List (Nat × StarRecord)
  ledger : Ledger
  log : List String
  fetches : List (Nat × String)
deriving DecidableEq, Repr

/-- Tail of each loop iteration (source lines 72-77): re-read the cell,
sort it in place if truthy, swallow the KeyError of a dropped row. -/
def sortTail (df : List (Nat × StarRecord)) (i : Nat) : List (Nat × StarRecord) :=
  match lookupRow df i with
  | none => df
  | some r =>
    if truthyTS r.timeseries then dfSet df i { r with timeseries := sortTS r.timeseries }
    else df

/-- The branch taken when the `timeseries` cell is falsy (source
lines 50-65): reuse a present psd, otherwise query lightkurve; on success
store the series, on failure print, record the identifier in the ledger
and drop the row.  The iteration tail (sort attempt) is included. -/
def emptyBranchState (query : String → Ctx → Except String Series)
    (s : RState) (i : Nat) (id : String) (r : StarRecord) : RState :=
  if r.psd.isSome then
    { s with df := sortTail s.df i }
  else
    match query id (ctxOf r) with
    | .ok lc =>
      { s with df := sortTail (dfSet s.df i { r with timeseries := .lightcurve lc }) i,
               fetches := s.fetches ++ [(i, id)] }
    | .error exc =>
      { s with df := sortTail (dfDrop s.df i) i,
               ledger := ledgerSet s.ledger (.ident id) exc,
               log := s.log ++ [queryFailMsg id exc],
               fetches := s.fetches ++ [(i, id)] }

/-- The `for i, id in enumerate(vardf[ID])` loop of `lc_to_lk` (source
lines 45-77), iterating over the positional indices and identifiers of
the original table.  Returns the final state and the uncaught exception,
if any (`np.genfromtxt` failures and the TypeError for unrecognized
series propagate; a missing label outside the guarded tail would be a
KeyError). -/
def lcToLkLoop (gft : String → Except PyError (List (Int × Int)))
    (query : String → Ctx → Except String Series) :
    List (Nat × String) → RState → RState × Option PyError
  | [], s => (s, none)
  | (i, id) :: rest, s =>
    match lookupRow s.df i with
    | none => (s, some .keyError)
    | some r =>
      match r.timeseries with
      | .str path =>
        match gft path with
        | .error pe => (s, some pe)
        | .ok cols =>
          let lc : Series := ⟨cols.map (fun p => (p.1, p.2 + 1))⟩
          lcToLkLoop gft query rest
            { s with df := sortTail (dfSet s.df i { r with timeseries := .lightcurve lc }) i }
      | .empty => lcToLkLoop gft query rest (emptyBranchState query s i id r)
      | .lightcurve lc =>
        if lc.points.isEmpty then lcToLkLoop gft query rest (emptyBranchState query s i id r)
        else lcToLkLoop gft query rest { s with df := sortTail s.df i }
      | .other => (s, some (.typeError "Can\x27t handle this type of time series object"))

/-- `lc_to_lk(vardf, download_dir, use_cached)` (source lines 39-80):
run the loop over the rows of the table, then reset the index of the
survivors.  `gft` models `np.genfromtxt` over the two used columns with
the fixed `tinyoffset = 1` applied afterwards by the caller; `query`
models `query_lightkurve` (the download directory and cache flag are
absorbed into the oracle).  The ledger argument is the state of the
module-level `failed_lk_query` on entry. -/
def lc_to_lk (gft : String → Except PyError (List (Int × Int)))
    (query : String → Ctx → Except String Series)
    (rows : List StarRecord) (ledger0 : Ledger) : RState × Option PyError :=
  let s0 : RState := ⟨rows.enum, ledger0, [], []⟩
  match lcToLkLoop gft query (rows.enum.map (fun p => (p.1, p.2.ID))) s0 with
  | (s, none) => ({ s with df := resetIndex s.df }, none)
  | (s, some e) => (s, some e)

/-- `pbjam.session.lk_to_pg` (external collaborator; contract from spec
section 4.3): every row whose timeseries is a series object gets its
power spectrum computed and stored in the psd column; rows that already
carried an explicit psd and no series are left untouched.  `toPg` models
the series-to-periodogram transform. -/
def lk_to_pg (toPg : Series → Spectrum) (df : List (Nat × StarRecord)) :
    List (Nat × StarRecord) :=
  df.map (fun p =>
    match p.2.timeseries with
    | .lightcurve lc => (p.1, { p.2 with psd := some (toPg lc) })
    | _ => p)

/-- One `pbjam.star` fitting unit (source lines 133-139): identifier,
periodogram, parameter pairs, output path, and the frequency axis `f`
used for the Nyquist check. -/
structure Star where
  ID : String
  pg : Spectrum
  numax : Int × Int
  dnu : Int × Int
  teff : Int × Int
  bp_rp : Int × Int
  path : Option String
  f : List Int
deriving DecidableEq, Repr

/-- Construct the `pbjam.star` object for one resolved row.  The psd of
every surviving row is populated by this point; the frequency axis of the
star is the frequency column of its periodogram. -/
def mkStar (path : Option String) (r : StarRecord) : Star :=
  let pg := r.psd.getD []
  { ID := r.ID, pg := pg, numax := (r.numax, r.numax_err), dnu := (r.dnu, r.dnu_err),
    teff := (r.teff, r.teff_err), bp_rp := (r.bp_rp, r.bp_rp_err), path := path,
    f := pg.map Prod.fst }

/-- Warning text of the Nyquist check (source lines 143-144, including
the spelling of the original). -/
def nyquistMsg (id : String) : String :=
  "Input numax is greater than Nyquist frequeny for " ++ id

/-- The post-construction warning loop (source lines 141-144): for each
star in order, compare numax against the last entry of the frequency
axis; `st.f[-1]` on an empty axis raises IndexError, aborting the loop
(warnings already emitted are kept). -/
def nyquistWarnings : List Star → List String × Option PyError
  | [] => ([], none)
  | st :: rest =>
    match st.f.getLast? with
    | none => ([], some .indexError)
    | some nyq =>
      let o := nyquistWarnings rest
      (if st.numax.1 > nyq then nyquistMsg st.ID :: o.1 else o.1, o.2)

/-- A Python exception raised by the external per-star fit: its type
name, its argument tuple, and its `str` rendering. -/
structure PyExc where
  typeName : String
  args : List String
  msg : String
deriving DecidableEq, Repr

/-- Rendering of the exception argument tuple in the log message
(the formatted repr of `ex.args`). -/
def argsRepr (args : List String) : String :=
  String.intercalate ", " args

/-- Console message printed when a fit fails (source lines 171-173). -/
def fitMessage (st : Star) (e : PyExc) : String :=
  "Star " ++ st.ID ++ " produced an exception of type " ++ e.typeName ++
    " occurred. Arguments:\n" ++ argsRepr e.args

/-- Configuration forwarded verbatim to each per-star fit call
(source lines 146-148; `model_type` passes through the
`self.pb_model_type` attribute unchanged). -/
structure FitCfg where
  bw_fac : Int
  tune : Int
  norders : Int
  model_type : String
  verbose : Bool
  nthreads : Int
  store_chains : Bool
  make_plots : Bool
deriving DecidableEq, Repr

/-- The `for i, st in enumerate(self.stars)` loop of `jam.__call__`
(source lines 161-175): on success the slot is set to None; on any
exception a message naming the star, the exception type and its
arguments is printed and the error string is written to the ledger at
the key the bare name `id` denotes there, namely the Python builtin.
`attempted` records the identifier of every star whose fit was invoked. -/
def jamCallLoop (fit : Star → FitCfg → Except PyExc Unit) (cfg : FitCfg) :
    List Star → Ledger → List (Option Star) × Ledger × List String × List String
  | [], L => ([], L, [], [])
  | st :: rest, L =>
    match fit st cfg with
    | .ok _ =>
      let o := jamCallLoop fit cfg rest L
      (none :: o.1, o.2.1, o.2.2.1, st.ID :: o.2.2.2)
    | .error ex =>
      let o := jamCallLoop fit cfg rest (ledgerSet L .builtinId ex.msg)
      (some st :: o.1, o.2.1, fitMessage st ex :: o.2.2.1, st.ID :: o.2.2.2)

/-- Result of a batch invocation: the star slots (None where the fit
completed), the ledger, the console log, and the identifiers of the
stars whose fit was attempted, in order. -/
structure CallResult where
  stars : List (Option Star)
  ledger : Ledger
  log : List String
  attempted : List String
deriving DecidableEq, Repr

/-- `jam.__call__` (source lines 146-175): invoke the external fit for
every star sequentially, isolating per-star failures; the call itself
never raises. -/
def jamCall (fit : Star → FitCfg → Except PyExc Unit) (cfg : FitCfg)
    (stars : List Star) (L : Ledger) : CallResult :=
  let o := jamCallLoop fit cfg stars L
  ⟨o.1, o.2.1, o.2.2.1, o.2.2.2⟩

/-- Runtime type of the `dictlike` argument of `jam.__init__`: the four
types accepted by the isinstance check, or anything else. -/
inductive Dictlike
  | dict (d : Nat)
  | recarray (d : Nat)
  | dataframe (rows : List StarRecord)
  | str (path : String)
  | other
deriving DecidableEq, Repr

/-- The external collaborators consumed by the wrapper, as oracles:
`pandas.DataFrame.from_records` (None models a TypeError),
`pandas.read_csv`, `np.genfromtxt` over the two used columns,
`query_lightkurve`, the periodogram transform, and the two pbjam input
organizers. -/
structure Ext where
  fromRecords : Dictlike → Option (List StarRecord)
  readCsv : String → List StarRecord
  genfromtxt : String → Except PyError (List (Int × Int))
  query : String → Ctx → Except String Series
  toPeriodogram : Series → Spectrum
  organizeDf : List StarRecord → List StarRecord
  organizeInput : String → Option Int → Option Int → Option Int → Option Int → List StarRecord

/-- Console message printed when `pandas.DataFrame.from_records` raises
a TypeError (source lines 102-104). -/
def unrecognizedMsg : String :=
  "Unrecognized type in dictlike. Must be able to convert to dataframe through pandas.DataFrame.from_records()"

/-- Warning emitted when both dictlike and scalar fit parameters are
supplied (source lines 107-108). -/
def dictlikeWarnMsg : String :=
  "Dictlike provided as input, ignoring other input fit parameters."

/-- Python truthiness of the ID parameter (`elif ID:`). -/
def idTruthy : Option String → Bool
  | none => false
  | some s => !s.isEmpty

/-- Python truthiness of a scalar numeric parameter inside
`any([ID, numax, dnu, teff, bp_rp])`. -/
def numTruthy : Option Int → Bool
  | none => false
  | some n => decide (n ≠ 0)

/-- The isinstance check of source line 95. -/
def isTabularType : Dictlike → Bool
  | .dict _ => true
  | .recarray _ => true
  | .dataframe _ => true
  | .str _ => true
  | .other => false

/-- Result of constructing a `jam` session: either the star list or the
uncaught exception, together with the module-level ledger, the console
log, the warnings, and the fetch instrumentation. -/
structure InitResult where
  outcome : Except PyError (List Star)
  ledger : Ledger
  log : List String
  warnings : List String
  fetches : List (Nat × String)
deriving Repr

/-- The common tail of `jam.__init__` once `vardf` is bound (source
lines 124-144): resolve light curves, convert to periodograms, build one
star per surviving row, then run the Nyquist warning loop. -/
def runPipeline (ext : Ext) (path : Option String) (rows : List StarRecord)
    (L0 : Ledger) (lg0 : List String) (wn0 : List String) : InitResult :=
  let res := lc_to_lk ext.genfromtxt ext.query rows L0
  match res.2 with
  | some pe => ⟨.error pe, res.1.ledger, lg0 ++ res.1.log, wn0, res.1.fetches⟩
  | none =>
    let df2 := lk_to_pg ext.toPeriodogram res.1.df
    let stars := df2.map (fun p => mkStar path p.2)
    let w := nyquistWarnings stars
    match w.2 with
    | some pe => ⟨.error pe, res.1.ledger, lg0 ++ res.1.log, wn0 ++ w.1, res.1.fetches⟩
    | none => ⟨.ok stars, res.1.ledger, lg0 ++ res.1.log, wn0 ++ w.1, res.1.fetches⟩

/-- `jam.__init__` (source lines 88-144).  If `dictlike` passes the
isinstance check, bind `vardf` from `read_csv` or `from_records`; a
TypeError from the latter is caught and reported, after which `vardf` is
still unbound, so the very next use (`organize_sess_dataframe(vardf)`)
raises an uncaught UnboundLocalError.  If the isinstance check fails and
`ID` is falsy, no branch binds `vardf` and its first use in the
`lc_to_lk` call raises the same way. -/
def jamInit (ext : Ext) (dictlike : Option Dictlike) (ID : Option String)
    (numax dnu teff bp_rp : Option Int) (path : Option String) (L0 : Ledger) :
    InitResult :=
  match dictlike with
  | some dl =>
    if isTabularType dl then
      let bound : Option (List StarRecord) × List String :=
        match dl with
        | .str p => (some (ext.readCsv p), [])
        | _ =>
          match ext.fromRecords dl with
          | some rows => (some rows, [])
          | none => (none, [unrecognizedMsg])
      let wn :=
        if idTruthy ID || numTruthy numax || numTruthy dnu || numTruthy teff ||
            numTruthy bp_rp then [dictlikeWarnMsg] else []
      match bound.1 with
      | none => ⟨.error .unboundLocalError, L0, bound.2, wn, []⟩
      | some rows => runPipeline ext path (ext.organizeDf rows) L0 bound.2 wn
    else if idTruthy ID then
      runPipeline ext path (ext.organizeInput (ID.getD "") numax dnu teff bp_rp) L0 [] []
    else ⟨.error .unboundLocalError, L0, [], [], []⟩
  | none =>
    if idTruthy ID then
      runPipeline ext path (ext.organizeInput (ID.getD "") numax dnu teff bp_rp) L0 [] []
    else ⟨.error .unboundLocalError, L0, [], [], []⟩

/-- The message text `msg` mentions `sub` as a contiguous substring. -/
def mentions (msg sub : String) : Prop :=
  sub.data <:+: msg.data

/-! ### Per-row characterization of the resolver loop

Each iteration of the `lc_to_lk` loop reads and writes only the row with
its own label, so the whole loop is characterized by a per-row outcome
function.  The definitions below are proof devices; `lc_to_lk` above is
the translation of the source and the equivalence is proved. -/

/-- Effect of the iteration tail on the row it re-reads. -/
def afterSort (r : StarRecord) : StarRecord :=
  if truthyTS r.timeseries then { r with timeseries := sortTS r.timeseries } else r

/-- What one iteration does to its row. -/
inductive RowOutcome
  | keep (r' : StarRecord) (fetched : Bool)
  | drop (exc : String)
  | fatal (e : PyError)
deriving DecidableEq, Repr

/-- Outcome of the falsy-timeseries branch. -/
def emptyOutcome (query : String → Ctx → Except String Series)
    (r : StarRecord) : RowOutcome :=
  if r.psd.isSome then .keep (afterSort r) false
  else
    match query r.ID (ctxOf r) with
    | .ok lc => .keep (afterSort { r with timeseries := .lightcurve lc }) true
    | .error exc => .drop exc

/-- Outcome of one iteration, as a function of the row alone (no earlier
iteration touches the row, so it is still original when reached). -/
def rowOutcome (gft : String → Except PyError (List (Int × Int)))
    (query : String → Ctx → Except String Series) (r : StarRecord) : RowOutcome :=
  match r.timeseries with
  | .str path =>
    match gft path with
    | .error pe => .fatal pe
    | .ok cols =>
      .keep (afterSort { r with timeseries := .lightcurve ⟨cols.map (fun p => (p.1, p.2 + 1))⟩ }) false
  | .empty => emptyOutcome query r
  | .lightcurve lc =>
    if lc.points.isEmpty then emptyOutcome query r
    else .keep (afterSort r) false
  | .other => .fatal (.typeError "Can\x27t handle this type of time series object")

/-- Accumulated output of running the loop over a list of rows starting
at label `j`. -/
structure RunOut where
  kept : List (Nat × StarRecord)
  ledger : Ledger
  log : List String
  fetches : List (Nat × String)
  exc : Option PyError
deriving Repr

/-- Compositional recomputation of the loop: process the rows in order,
keeping, dropping or aborting per `rowOutcome`.  On a fatal row the
remaining rows are returned untouched (the DataFrame is discarded by the
propagating exception; ledger, log and fetches keep their values). -/
def runRowsAux (gft : String → Except PyError (List (Int × Int)))
    (query : String → Ctx → Except String Series) :
    List StarRecord → Nat → Ledger → List String → List (Nat × String) → RunOut
  | [], _, L, lg, ft => ⟨[], L, lg, ft, none⟩
  | r :: rest, j, L, lg, ft =>
    match rowOutcome gft query r with
    | .keep r' f =>
      let o := runRowsAux gft query rest (j + 1) L lg (if f then ft ++ [(j, r.ID)] else ft)
      ⟨(j, r') :: o.kept, o.ledger, o.log, o.fetches, o.exc⟩
    | .drop exc =>
      runRowsAux gft query rest (j + 1) (ledgerSet L (.ident r.ID) exc)
        (lg ++ [queryFailMsg r.ID exc]) (ft ++ [(j, r.ID)])
    | .fatal e => ⟨(r :: rest).enumFrom j, L, lg, ft, some e⟩

/-- Reattach the already-processed prefix of the DataFrame to the output
of `runRowsAux`. -/
def withFront (front : List (Nat × StarRecord)) (o : RunOut) : RState × Option PyError :=
  (⟨front ++ o.kept, o.ledger, o.log, o.fetches⟩, o.exc)

/-- The DataFrame segment produced by a run of pass-only rows starting at
label `j`: every row keeps its label and is sorted in place if truthy. -/
def afterSortDf (seg : List StarRecord) (j : Nat) : List (Nat × StarRecord) :=
  (seg.enumFrom j).map (fun p => (p.1, afterSort p.2))

/-- A row whose iteration is a pure pass: a non-empty in-memory series,
or an empty timeseries cell with a psd already present. -/
def benignRow (r : StarRecord) : Prop :=
  (∃ lc, r.timeseries = .lightcurve lc ∧ lc.points.isEmpty = false) ∨
    (r.timeseries = .empty ∧ r.psd.isSome = true)

/-- A row whose iteration raises an uncaught exception: an unrecognized
truthy series object, or a file path `np.genfromtxt` fails on. -/
def fatalRow (gft : String → Except PyError (List (Int × Int))) (r : StarRecord) : Prop :=
  r.timeseries = .other ∨ ∃ path pe, r.timeseries = .str path ∧ gft path = .error pe

/-- A row for which the loop invokes `query_lightkurve`: falsy
timeseries cell and no psd. -/
def fetchesRow (r : StarRecord) : Prop :=
  (r.timeseries = .empty ∨ ∃ lc, r.timeseries = .lightcurve lc ∧ lc.points.isEmpty = true) ∧
    r.psd = none

/-! ### Concrete inputs used by the witnesses -/

/-- A star record with the given identifier, timeseries cell and psd,
and placeholder stellar parameters. -/
def mkRec (id : String) (ts : TSField) (psd : Option Spectrum) : StarRecord :=
  ⟨id, 0, 0, 0, 0, 0, 0, 0, 0, ts, psd, none, none, none, none, none, none⟩

/-- Row with a pre-supplied power spectrum and empty timeseries. -/
def recPsd : StarRecord := mkRec "C" .empty (some [(1, 1), (2, 2)])

/-- Row with an in-memory series. -/
def recLc : StarRecord := mkRec "L" (.lightcurve ⟨[(2, 5), (1, 6)]⟩) none

/-- Row whose remote fetch fails. -/
def recFail : StarRecord := mkRec "B" .empty none

/-- Row backed by a local two-column file. -/
def recFile : StarRecord := mkRec "A" (.str "a.txt") none

/-- Row with an unrecognized truthy series object. -/
def recOther : StarRecord := mkRec "O" .other none

/-- Row whose local file cannot be loaded. -/
def recBadFile : StarRecord := mkRec "F" (.str "bad.txt") none

/-- Concrete `np.genfromtxt` oracle: fails on `bad.txt`, otherwise
returns an unsorted two-column file. -/
def gft0 : String → Except PyError (List (Int × Int)) := fun p =>
  if p = "bad.txt" then .error (.ioError "bad.txt not found") else .ok [(3, 10), (1, 20)]

/-- Concrete `query_lightkurve` oracle: raises on identifier B,
otherwise returns an unsorted series. -/
def query0 : String → Ctx → Except String Series := fun id _ =>
  if id = "B" then .error "HTTPError: 404" else .ok ⟨[(2, 5), (1, 6)]⟩

/-- A star with a one-point spectrum and numax above its Nyquist
frequency. -/
def starHot : Star :=
  { ID := "X", pg := [(1, 1)], numax := (10, 1), dnu := (1, 1), teff := (5000, 100),
    bp_rp := (1, 1), path := none, f := [1] }

/-- A star with the given identifier and numax below Nyquist. -/
def starOk (id : String) : Star :=
  { ID := id, pg := [(1, 1), (30, 2)], numax := (10, 1), dnu := (1, 1),
    teff := (5000, 100), bp_rp := (1, 1), path := none, f := [1, 30] }

/-- The exception thrown by the concrete failing fit. -/
def exC : PyExc := ⟨"ValueError", ["boom"], "boom"⟩

/-- Concrete fit oracle: raises on star C only. -/
def fitC : Star → FitCfg → Except PyExc Unit := fun st _ =>
  if st.ID = "C" then .error exC else .ok ()

/-- Default batch configuration of the script. -/
def cfg0 : FitCfg := ⟨1, 1500, 8, "simple", false, 1, false, false⟩

/-- Five-star batch in which only star C fails. -/
def stars5 : List Star := [starOk "A", starOk "B", starOk "C", starOk "D", starOk "E"]

/-- External oracle bundle whose `from_records` rejects every input. -/
def extFail : Ext :=
  { fromRecords := fun _ => none, readCsv := fun _ => [], genfromtxt := fun _ => .ok [],
    query := fun _ _ => .error "", toPeriodogram := fun _ => [],
    organizeDf := fun rows => rows, organizeInput := fun _ _ _ _ _ => [] }

/-! ### Basic lemmas about the DataFrame operations -/

theorem le_fst_of_mem_enumFrom {α : Type*} :
    ∀ (l : List α) (n : Nat) (p : Nat × α), p ∈ l.enumFrom n → n ≤ p.1 := by
  intro l
  induction l with
  | nil => intro n p h; simp [List.enumFrom] at h
  | cons a l ih =>
    intro n p h
    simp only [List.enumFrom, List.mem_cons] at h
    rcases h with h | h
    · subst h; exact Nat.le_refl n
    · exact Nat.le_of_succ_le (ih (n + 1) p h)

theorem lookupRow_hit (front tail : List (Nat × StarRecord)) (i : Nat) (r : StarRecord)
    (hf : ∀ p ∈ front, p.1 ≠ i) :
    lookupRow (front ++ (i, r) :: tail) i = some r := by
  induction front with
  | nil => simp [lookupRow]
  | cons p front ih =>
    have hp : p.1 ≠ i := hf p (List.mem_cons_self p front)
    simp only [List.cons_append, lookupRow, hp, if_neg]
    exact ih (fun q hq => hf q (List.mem_cons_of_mem p hq))

theorem lookupRow_none (l : List (Nat × StarRecord)) (i : Nat)
    (h : ∀ p ∈ l, p.1 ≠ i) : lookupRow l i = none := by
  induction l with
  | nil => rfl
  | cons p l ih =>
    have hp : p.1 ≠ i := h p (List.mem_cons_self p l)
    simp only [lookupRow, hp, if_neg]
    exact ih (fun q hq => h q (List.mem_cons_of_mem p hq))

theorem dfSet_id (l : List (Nat × StarRecord)) (i : Nat) (x : StarRecord)
    (h : ∀ p ∈ l, p.1 ≠ i) : dfSet l i x = l := by
  induction l with
  | nil => rfl
  | cons p l ih =>
    have hp : p.1 ≠ i := h p (List.mem_cons_self p l)
    simp only [dfSet]
    rw [if_neg hp]
    exact congrArg (p :: ·) (ih (fun q hq => h q (List.mem_cons_of_mem p hq)))

theorem dfSet_hit (front tail : List (Nat × StarRecord)) (i : Nat) (r x : StarRecord)
    (hf : ∀ p ∈ front, p.1 ≠ i) (ht : ∀ p ∈ tail, p.1 ≠ i) :
    dfSet (front ++ (i, r) :: tail) i x = front ++ (i, x) :: tail := by
  induction front with
  | nil => simp [dfSet, dfSet_id tail i x ht]
  | cons p front ih =>
    have hp : p.1 ≠ i := hf p (List.mem_cons_self p front)
    simp only [List.cons_append, dfSet]
    rw [if_neg hp]
    exact congrArg (p :: ·) (ih (fun q hq => hf q (List.mem_cons_of_mem p hq)))

theorem dfDrop_id (l : List (Nat × StarRecord)) (i : Nat)
    (h : ∀ p ∈ l, p.1 ≠ i) : dfDrop l i = l := by
  induction l with
  | nil => rfl
  | cons p l ih =>
    have hp : p.1 ≠ i := h p (List.mem_cons_self p l)
    simp only [dfDrop]
    rw [if_neg hp]
    exact congrArg (p :: ·) (ih (fun q hq => h q (List.mem_cons_of_mem p hq)))

theorem dfDrop_hit (front tail : List (Nat × StarRecord)) (i : Nat) (r : StarRecord)
    (hf : ∀ p ∈ front, p.1 ≠ i) (ht : ∀ p ∈ tail, p.1 ≠ i) :
    dfDrop (front ++ (i, r) :: tail) i = front ++ tail := by
  induction front with
  | nil => simp [dfDrop, dfDrop_id tail i ht]
  | cons p front ih =>
    have hp : p.1 ≠ i := hf p (List.mem_cons_self p front)
    simp only [List.cons_append, dfDrop]
    rw [if_neg hp]
    exact congrArg (p :: ·) (ih (fun q hq => hf q (List.mem_cons_of_mem p hq)))

theorem sortTail_present (front tail : List (Nat × StarRecord)) (i : Nat) (x : StarRecord)
    (hf : ∀ p ∈ front, p.1 ≠ i) (ht : ∀ p ∈ tail, p.1 ≠ i) :
    sortTail (front ++ (i, x) :: tail) i = front ++ (i, afterSort x) :: tail := by
  unfold sortTail
  rw [lookupRow_hit front tail i x hf]
  by_cases h : truthyTS x.timeseries
  · simp only [h, if_pos, afterSort, if_pos h]
    exact dfSet_hit front tail i x _ hf ht
  · simp only [h, if_neg, afterSort, Bool.false_eq_true, if_false]

theorem sortTail_absent (l : List (Nat × StarRecord)) (i : Nat)
    (h : ∀ p ∈ l, p.1 ≠ i) : sortTail l i = l := by
  unfold sortTail
  rw [lookupRow_none l i h]

/-! ### Characterization of the resolver loop -/

theorem emptyOutcome_ne_fatal (query : String → Ctx → Except String Series)
    (r : StarRecord) (e : PyError) : emptyOutcome query r ≠ .fatal e := by
  unfold emptyOutcome
  by_cases h : r.psd.isSome
  · simp [h]
  · simp only [h, Bool.false_eq_true, if_false]
    cases hq : query r.ID (ctxOf r) <;> simp

theorem emptyBranch_keep (query : String → Ctx → Except String Series)
    (front tail : List (Nat × StarRecord)) (i : Nat) (r r' : StarRecord) (f : Bool)
    (L : Ledger) (lg : List String) (ft : List (Nat × String))
    (hf : ∀ p ∈ front, p.1 ≠ i) (ht : ∀ p ∈ tail, p.1 ≠ i)
    (h : emptyOutcome query r = .keep r' f) :
    emptyBranchState query ⟨front ++ (i, r) :: tail, L, lg, ft⟩ i r.ID r =
      ⟨front ++ (i, r') :: tail, L, lg, if f then ft ++ [(i, r.ID)] else ft⟩ := by
  unfold emptyOutcome at h
  unfold emptyBranchState
  by_cases hp : r.psd.isSome
  · rw [if_pos hp] at h ⊢
    injection h with h1 h2
    subst h1; subst h2
    simp only [Bool.false_eq_true, if_false]
    rw [sortTail_present front tail i r hf ht]
  · rw [if_neg hp] at h
    simp only [hp, Bool.false_eq_true, if_false]
    cases hq : query r.ID (ctxOf r) with
    | ok lc =>
      rw [hq] at h
      injection h with h1 h2
      subst h1; subst h2
      simp only [if_pos]
      rw [dfSet_hit front tail i r _ hf ht,
        sortTail_present front tail i _ hf ht]
    | error exc =>
      rw [hq] at h
      exact absurd h (by simp)

theorem emptyBranch_drop (query : String → Ctx → Except String Series)
    (front tail : List (Nat × StarRecord)) (i : Nat) (r : StarRecord) (exc : String)
    (L : Ledger) (lg : List String) (ft : List (Nat × String))
    (hf : ∀ p ∈ front, p.1 ≠ i) (ht : ∀ p ∈ tail, p.1 ≠ i)
    (h : emptyOutcome query r = .drop exc) :
    emptyBranchState query ⟨front ++ (i, r) :: tail, L, lg, ft⟩ i r.ID r =
      ⟨front ++ tail, ledgerSet L (.ident r.ID) exc, lg ++ [queryFailMsg r.ID exc],
        ft ++ [(i, r.ID)]⟩ := by
  unfold emptyOutcome at h
  unfold emptyBranchState
  by_cases hp : r.psd.isSome
  · rw [if_pos hp] at h; exact absurd h (by simp)
  · rw [if_neg hp] at h
    simp only [hp, Bool.false_eq_true, if_false]
    cases hq : query r.ID (ctxOf r) with
    | ok lc => rw [hq] at h; exact absurd h (by simp)
    | error exc' =>
      rw [hq] at h
      injection h with h1
      subst h1
      rw [dfDrop_hit front tail i r hf ht,
        sortTail_absent (front ++ tail) i
          (fun p hp' => (List.mem_append.mp hp').elim (hf p) (ht p))]

theorem loop_char (gft : String → Except PyError (List (Int × Int)))
    (query : String → Ctx → Except String Series) :
    ∀ (rest : List StarRecord) (j : Nat) (front : List (Nat × StarRecord))
      (L : Ledger) (lg : List String) (ft : List (Nat × String)),
      (∀ p ∈ front, p.1 < j) →
      lcToLkLoop gft query ((rest.enumFrom j).map (fun p => (p.1, p.2.ID)))
          ⟨front ++ rest.enumFrom j, L, lg, ft⟩ =
        withFront front (runRowsAux gft query rest j L lg ft) := by
  intro rest
  induction rest with
  | nil =>
    intro j front L lg ft hf
    simp [List.enumFrom, lcToLkLoop, runRowsAux, withFront]
  | cons r rs ih =>
    intro j front L lg ft hf
    have hf' : ∀ p ∈ front, p.1 ≠ j := fun p hp => Nat.ne_of_lt (hf p hp)
    have ht : ∀ p ∈ rs.enumFrom (j + 1), p.1 ≠ j := fun p hp =>
      Nat.ne_of_gt (Nat.lt_of_succ_le (le_fst_of_mem_enumFrom rs (j + 1) p hp))
    have hf1 : ∀ x : StarRecord, ∀ p ∈ front ++ [(j, x)], p.1 < j + 1 := by
      intro x p hp
      rcases List.mem_append.mp hp with h | h
      · exact Nat.lt_succ_of_lt (hf p h)
      · rw [List.mem_singleton.mp h]; exact Nat.lt_succ_self j
    simp only [List.enumFrom, List.map_cons]
    simp only [lcToLkLoop]
    rw [lookupRow_hit front _ j r hf']
    cases hts : r.timeseries with
    | str path =>
      simp only [hts]
      cases hg : gft path with
      | error pe =>
        simp only [hg, runRowsAux, rowOutcome, hts, withFront]
        simp [List.enumFrom]
      | ok cols =>
        simp only [hg]
        rw [dfSet_hit front _ j r _ hf' ht, sortTail_present front _ j _ hf' ht]
        have H := ih (j + 1)
          (front ++ [(j, afterSort
            { r with timeseries := .lightcurve ⟨cols.map (fun p => (p.1, p.2 + 1))⟩ })])
          L lg ft (hf1 _)
        simp only [List.append_assoc, List.singleton_append] at H
        rw [H]
        simp [runRowsAux, rowOutcome, hts, hg, withFront]
    | empty =>
      simp only [hts]
      cases ho : emptyOutcome query r with
      | keep r' f =>
        rw [emptyBranch_keep query front _ j r r' f L lg ft hf' ht ho]
        have H := ih (j + 1) (front ++ [(j, r')]) L lg
          (if f then ft ++ [(j, r.ID)] else ft) (hf1 _)
        simp only [List.append_assoc, List.singleton_append] at H
        rw [H]
        simp [runRowsAux, rowOutcome, hts, ho, withFront]
      | drop exc =>
        rw [emptyBranch_drop query front _ j r exc L lg ft hf' ht ho]
        rw [ih (j + 1) front _ _ _ (fun p hp => Nat.lt_succ_of_lt (hf p hp))]
        simp [runRowsAux, rowOutcome, hts, ho, withFront]
      | fatal e => exact absurd ho (emptyOutcome_ne_fatal query r e)
    | lightcurve lc =>
      simp only [hts]
      cases hemp : lc.points.isEmpty with
      | true =>
        rw [if_pos rfl]
        cases ho : emptyOutcome query r with
        | keep r' f =>
          rw [emptyBranch_keep query front _ j r r' f L lg ft hf' ht ho]
          have H := ih (j + 1) (front ++ [(j, r')]) L lg
            (if f then ft ++ [(j, r.ID)] else ft) (hf1 _)
          simp only [List.append_assoc, List.singleton_append] at H
          rw [H]
          simp [runRowsAux, rowOutcome, hts, hemp, ho, withFront]
        | drop exc =>
          rw [emptyBranch_drop query front _ j r exc L lg ft hf' ht ho]
          rw [ih (j + 1) front _ _ _ (fun p hp => Nat.lt_succ_of_lt (hf p hp))]
          simp [runRowsAux, rowOutcome, hts, hemp, ho, withFront]
        | fatal e => exact absurd ho (emptyOutcome_ne_fatal query r e)
      | false =>
        rw [if_neg (by simp [hemp])]
        rw [sortTail_present front _ j r hf' ht]
        have H := ih (j + 1) (front ++ [(j, afterSort r)]) L lg ft (hf1 _)
        simp only [List.append_assoc, List.singleton_append] at H
        rw [H]
        simp [runRowsAux, rowOutcome, hts, hemp, withFront]
    | other =>
      simp only [hts, runRowsAux, rowOutcome, withFront]
      simp [List.enumFrom]

/-- The resolver equals its compositional recomputation: process every
row independently, then reset the index unless an exception aborted the
loop. -/
theorem lc_to_lk_char (gft : String → Except PyError (List (Int × Int)))
    (query : String → Ctx → Except String Series)
    (rows : List StarRecord) (L0 : Ledger) :
    lc_to_lk gft query rows L0 =
      (let o := runRowsAux gft query rows 0 L0 [] []
       match o.exc with
       | none => (⟨resetIndex o.kept, o.ledger, o.log, o.fetches⟩, none)
       | some e => (⟨o.kept, o.ledger, o.log, o.fetches⟩, some e)) := by
  have h := loop_char gft query rows 0 [] L0 [] [] (by intro p hp; simp at hp)
  simp only [List.nil_append] at h
  unfold lc_to_lk
  dsimp only
  rw [show rows.enum = rows.enumFrom 0 from rfl, h]
  simp only [withFront, List.nil_append]
  cases hexc : (runRowsAux gft query rows 0 L0 [] []).exc <;> simp [hexc]

theorem afterSort_ID (r : StarRecord) : (afterSort r).ID = r.ID := by
  unfold afterSort
  split <;> rfl

theorem emptyOutcome_keep_ID (query : String → Ctx → Except String Series)
    (r r' : StarRecord) (f : Bool) (h : emptyOutcome query r = .keep r' f) :
    r'.ID = r.ID := by
  unfold emptyOutcome at h
  by_cases hp : r.psd.isSome
  · rw [if_pos hp] at h
    injection h with h1 _
    rw [← h1, afterSort_ID]
  · rw [if_neg hp] at h
    cases hq : query r.ID (ctxOf r) with
    | ok lc =>
      rw [hq] at h
      injection h with h1 _
      rw [← h1, afterSort_ID]
    | error exc => rw [hq] at h; exact absurd h (by simp)

theorem rowOutcome_keep_ID (gft : String → Except PyError (List (Int × Int)))
    (query : String → Ctx → Except String Series)
    (r r' : StarRecord) (f : Bool) (h : rowOutcome gft query r = .keep r' f) :
    r'.ID = r.ID := by
  cases hts : r.timeseries with
  | str path =>
    simp only [rowOutcome, hts] at h
    cases hg : gft path with
    | error pe => simp [hg] at h
    | ok cols =>
      simp only [hg] at h
      injection h with h1 _
      rw [← h1, afterSort_ID]
  | empty =>
    simp only [rowOutcome, hts] at h
    exact emptyOutcome_keep_ID query r r' f h
  | lightcurve lc =>
    simp only [rowOutcome, hts] at h
    by_cases hemp : lc.points.isEmpty = true
    · rw [if_pos hemp] at h
      exact emptyOutcome_keep_ID query r r' f h
    · rw [if_neg hemp] at h
      injection h with h1 _
      rw [← h1, afterSort_ID]
  | other => simp [rowOutcome, hts] at h

/-- The identifiers of the kept rows form a subsequence of the input
identifiers (one entry per surviving row, original order). -/
theorem runRowsAux_kept_ids (gft : String → Except PyError (List (Int × Int)))
    (query : String → Ctx → Except String Series) :
    ∀ (rows : List StarRecord) (j : Nat) (L : Ledger) (lg : List String)
      (ft : List (Nat × String)),
      List.Sublist ((runRowsAux gft query rows j L lg ft).kept.map (fun p => p.2.ID))
        (rows.map (fun r => r.ID)) := by
  intro rows
  induction rows with
  | nil => intro j L lg ft; simp [runRowsAux]
  | cons r rs ih =>
    intro j L lg ft
    cases ho : rowOutcome gft query r with
    | keep r' f =>
      simp only [runRowsAux, ho, List.map_cons]
      rw [rowOutcome_keep_ID gft query r r' f ho]
      exact (ih (j + 1) L lg _).cons₂ r.ID
    | drop exc =>
      simp only [runRowsAux, ho, List.map_cons]
      exact (ih (j + 1) _ _ _).cons r.ID
    | fatal e =>
      simp only [runRowsAux, ho, List.map_cons]
      have : ((r :: rs).enumFrom j).map (fun p => p.2.ID) =
          (r :: rs).map (fun x => x.ID) := by
        rw [show (fun p : Nat × StarRecord => p.2.ID) =
            (fun x : StarRecord => x.ID) ∘ Prod.snd from rfl, ← List.map_map,
          List.enumFrom_map_snd]
      rw [this]
      simp

theorem ledgerSet_mem (L : Ledger) (k : LedgerKey) (v : String) (p : LedgerKey × String)
    (h : p ∈ ledgerSet L k v) : p ∈ L ∨ p.1 = k := by
  unfold ledgerSet at h
  split at h
  · rcases List.mem_map.mp h with ⟨q, hq, hqe⟩
    by_cases hk : q.1 = k
    · rw [if_pos hk] at hqe
      right; rw [← hqe]
    · rw [if_neg hk] at hqe
      left; rw [← hqe]; exact hq
  · rcases List.mem_append.mp h with h | h
    · exact Or.inl h
    · right; rw [List.mem_singleton.mp h]

theorem benign_outcome (gft : String → Except PyError (List (Int × Int)))
    (query : String → Ctx → Except String Series) (r : StarRecord)
    (h : benignRow r) : rowOutcome gft query r = .keep (afterSort r) false := by
  rcases h with ⟨lc, hts, hne⟩ | ⟨hts, hp⟩
  · simp only [rowOutcome, hts]
    rw [if_neg (by simp [hne])]
  · simp only [rowOutcome, hts, emptyOutcome]
    rw [if_pos hp]

theorem rowOutcome_ne_fatal (gft : String → Except PyError (List (Int × Int)))
    (query : String → Ctx → Except String Series) (r : StarRecord)
    (h : ¬ fatalRow gft r) (e : PyError) : rowOutcome gft query r ≠ .fatal e := by
  intro hc
  cases hts : r.timeseries with
  | str path =>
    simp only [rowOutcome, hts] at hc
    cases hg : gft path with
    | error pe => exact h (Or.inr ⟨path, pe, hts, hg⟩)
    | ok cols => simp [hg] at hc
  | empty =>
    simp only [rowOutcome, hts] at hc
    exact emptyOutcome_ne_fatal query r e hc
  | lightcurve lc =>
    simp only [rowOutcome, hts] at hc
    by_cases hemp : lc.points.isEmpty = true
    · rw [if_pos hemp] at hc
      exact emptyOutcome_ne_fatal query r e hc
    · rw [if_neg hemp] at hc
      simp at hc
  | other => exact h (Or.inl hts)

theorem emptyOutcome_keep_psd (query : String → Ctx → Except String Series)
    (r r' : StarRecord) (h : emptyOutcome query r = .keep r' true) : r.psd = none := by
  unfold emptyOutcome at h
  by_cases hp : r.psd.isSome
  · rw [if_pos hp] at h
    injection h with _ h2
    exact Bool.noConfusion h2
  · exact Option.not_isSome_iff_eq_none.mp hp

theorem emptyOutcome_drop_psd (query : String → Ctx → Except String Series)
    (r : StarRecord) (exc : String) (h : emptyOutcome query r = .drop exc) :
    r.psd = none := by
  unfold emptyOutcome at h
  by_cases hp : r.psd.isSome
  · rw [if_pos hp] at h
    exact absurd h (by simp)
  · exact Option.not_isSome_iff_eq_none.mp hp

theorem rowOutcome_keep_fetch (gft : String → Except PyError (List (Int × Int)))
    (query : String → Ctx → Except String Series) (r r' : StarRecord)
    (h : rowOutcome gft query r = .keep r' true) : fetchesRow r := by
  cases hts : r.timeseries with
  | str path =>
    simp only [rowOutcome, hts] at h
    cases hg : gft path with
    | error pe => simp [hg] at h
    | ok cols =>
      simp only [hg] at h
      injection h with _ h2
      exact Bool.noConfusion h2
  | empty =>
    simp only [rowOutcome, hts] at h
    exact ⟨Or.inl hts, emptyOutcome_keep_psd query r r' h⟩
  | lightcurve lc =>
    simp only [rowOutcome, hts] at h
    by_cases hemp : lc.points.isEmpty = true
    · rw [if_pos hemp] at h
      exact ⟨Or.inr ⟨lc, hts, hemp⟩, emptyOutcome_keep_psd query r r' h⟩
    · rw [if_neg hemp] at h
      injection h with _ h2
      exact Bool.noConfusion h2
  | other => simp [rowOutcome, hts] at h

theorem rowOutcome_drop_fetch (gft : String → Except PyError (List (Int × Int)))
    (query : String → Ctx → Except String Series) (r : StarRecord) (exc : String)
    (h : rowOutcome gft query r = .drop exc) : fetchesRow r := by
  cases hts : r.timeseries with
  | str path =>
    simp only [rowOutcome, hts] at h
    cases hg : gft path with
    | error pe => simp [hg] at h
    | ok cols => simp [hg] at h
  | empty =>
    simp only [rowOutcome, hts] at h
    exact ⟨Or.inl hts, emptyOutcome_drop_psd query r exc h⟩
  | lightcurve lc =>
    simp only [rowOutcome, hts] at h
    by_cases hemp : lc.points.isEmpty = true
    · rw [if_pos hemp] at h
      exact ⟨Or.inr ⟨lc, hts, hemp⟩, emptyOutcome_drop_psd query r exc h⟩
    · rw [if_neg hemp] at h
      simp at h
  | other => simp [rowOutcome, hts] at h

theorem afterSortDf_ids (seg : List StarRecord) (j : Nat) :
    (afterSortDf seg j).map (fun p => p.2.ID) = seg.map (fun r => r.ID) := by
  induction seg generalizing j with
  | nil => simp [afterSortDf, List.enumFrom]
  | cons x xs ih =>
    simp only [afterSortDf, List.enumFrom, List.map_cons] at ih ⊢
    rw [afterSort_ID]
    exact congrArg (x.ID :: ·) (ih (j + 1))

/-- A run over pass-only rows keeps every row (sorted in place) and
touches neither the ledger, the log nor the fetch list. -/
theorem runRowsAux_benign (gft : String → Except PyError (List (Int × Int)))
    (query : String → Ctx → Except String Series) :
    ∀ (seg : List StarRecord) (j : Nat) (L : Ledger) (lg : List String)
      (ft : List (Nat × String)), (∀ x ∈ seg, benignRow x) →
      runRowsAux gft query seg j L lg ft = ⟨afterSortDf seg j, L, lg, ft, none⟩ := by
  intro seg
  induction seg with
  | nil => intro j L lg ft _; simp [runRowsAux, afterSortDf, List.enumFrom]
  | cons x xs ih =>
    intro j L lg ft h
    have hx := benign_outcome gft query x (h x (List.mem_cons_self x xs))
    simp only [runRowsAux, hx]
    rw [ih (j + 1) L lg _ (fun y hy => h y (List.mem_cons_of_mem x hy))]
    simp [afterSortDf, List.enumFrom]

/-- Splitting off a pass-only prefix of the row list. -/
theorem runRowsAux_benign_front (gft : String → Except PyError (List (Int × Int)))
    (query : String → Ctx → Except String Series) :
    ∀ (seg rest : List StarRecord) (j : Nat) (L : Ledger) (lg : List String)
      (ft : List (Nat × String)), (∀ x ∈ seg, benignRow x) →
      runRowsAux gft query (seg ++ rest) j L lg ft =
        (let o := runRowsAux gft query rest (j + seg.length) L lg ft
         ⟨afterSortDf seg j ++ o.kept, o.ledger, o.log, o.fetches, o.exc⟩) := by
  intro seg
  induction seg with
  | nil =>
    intro rest j L lg ft _
    simp [afterSortDf, List.enumFrom]
  | cons x xs ih =>
    intro rest j L lg ft h
    have hx := benign_outcome gft query x (h x (List.mem_cons_self x xs))
    simp only [List.cons_append, runRowsAux, hx, Bool.false_eq_true, if_false,
      List.append_eq]
    rw [ih rest (j + 1) L lg ft (fun y hy => h y (List.mem_cons_of_mem x hy))]
    have harith : j + 1 + xs.length = j + (xs.length + 1) := by omega
    simp [afterSortDf, List.enumFrom, harith]

/-- A row whose outcome is keep appears, with its own label, in the kept
output of any run that did not abort. -/
theorem runRowsAux_mem_keep (gft : String → Except PyError (List (Int × Int)))
    (query : String → Ctx → Except String Series) :
    ∀ (rows : List StarRecord) (j : Nat) (L : Ledger) (lg : List String)
      (ft : List (Nat × String)) (k : Nat) (r r' : StarRecord) (f : Bool),
      (runRowsAux gft query rows j L lg ft).exc = none →
      rows.get? k = some r → rowOutcome gft query r = .keep r' f →
      (j + k, r') ∈ (runRowsAux gft query rows j L lg ft).kept := by
  intro rows
  induction rows with
  | nil => intro j L lg ft k r r' f _ hk; simp at hk
  | cons x xs ih =>
    intro j L lg ft k r r' f hexc hk hro
    cases ho : rowOutcome gft query x with
    | keep x' fx =>
      simp only [runRowsAux, ho] at hexc ⊢
      cases k with
      | zero =>
        have hxr : x = r := by simpa using hk
        subst hxr
        rw [hro] at ho
        injection ho with h1 _
        rw [Nat.add_zero, h1]
        exact List.mem_cons_self _ _
      | succ k' =>
        have hk' : xs.get? k' = some r := by simpa using hk
        have := ih (j + 1) L lg _ k' r r' f hexc hk' hro
        have harith : j + (k' + 1) = j + 1 + k' := by omega
        rw [harith]
        exact List.mem_cons_of_mem _ this
    | drop exc =>
      simp only [runRowsAux, ho] at hexc ⊢
      cases k with
      | zero =>
        have hxr : x = r := by simpa using hk
        subst hxr
        rw [hro] at ho
        exact absurd ho (by simp)
      | succ k' =>
        have hk' : xs.get? k' = some r := by simpa using hk
        have := ih (j + 1) _ _ _ k' r r' f hexc hk' hro
        have harith : j + (k' + 1) = j + 1 + k' := by omega
        rw [harith]
        exact this
    | fatal e =>
      simp only [runRowsAux, ho] at hexc
      exact absurd hexc (by simp)

/-- If every row before position `pre.length` is non-fatal and the row
there is fatal, the run aborts with that exception. -/
theorem runRowsAux_fatal_exc (gft : String → Except PyError (List (Int × Int)))
    (query : String → Ctx → Except String Series) :
    ∀ (pre : List StarRecord) (r : StarRecord) (post : List StarRecord)
      (j : Nat) (L : Ledger) (lg : List String) (ft : List (Nat × String)) (e : PyError),
      (∀ x ∈ pre, ¬ fatalRow gft x) → rowOutcome gft query r = .fatal e →
      (runRowsAux gft query (pre ++ r :: post) j L lg ft).exc = some e := by
  intro pre
  induction pre with
  | nil =>
    intro r post j L lg ft e _ hro
    simp [runRowsAux, hro]
  | cons x xs ih =>
    intro r post j L lg ft e hpre hro
    have hx : ¬ fatalRow gft x := hpre x (List.mem_cons_self x xs)
    have hrest : ∀ y ∈ xs, ¬ fatalRow gft y := fun y hy => hpre y (List.mem_cons_of_mem x hy)
    cases ho : rowOutcome gft query x with
    | keep x' fx =>
      simp only [List.cons_append, runRowsAux, ho]
      exact ih r post (j + 1) L lg _ e hrest hro
    | drop exc =>
      simp only [List.cons_append, runRowsAux, ho]
      exact ih r post (j + 1) _ _ _ e hrest hro
    | fatal e' => exact absurd ho (rowOutcome_ne_fatal gft query x hx e')

/-- Ledger entries after an aborted run come from the entry ledger or
from rows strictly before the fatal row. -/
theorem runRowsAux_fatal_ledger (gft : String → Except PyError (List (Int × Int)))
    (query : String → Ctx → Except String Series) :
    ∀ (pre : List StarRecord) (r : StarRecord) (post : List StarRecord)
      (j : Nat) (L : Ledger) (lg : List String) (ft : List (Nat × String)) (e : PyError)
      (p : LedgerKey × String),
      (∀ x ∈ pre, ¬ fatalRow gft x) → rowOutcome gft query r = .fatal e →
      p ∈ (runRowsAux gft query (pre ++ r :: post) j L lg ft).ledger →
      p ∈ L ∨ ∃ x ∈ pre, p.1 = LedgerKey.ident x.ID := by
  intro pre
  induction pre with
  | nil =>
    intro r post j L lg ft e p _ hro hp
    simp only [List.nil_append, runRowsAux, hro] at hp
    exact Or.inl hp
  | cons x xs ih =>
    intro r post j L lg ft e p hpre hro hp
    have hx : ¬ fatalRow gft x := hpre x (List.mem_cons_self x xs)
    have hrest : ∀ y ∈ xs, ¬ fatalRow gft y := fun y hy => hpre y (List.mem_cons_of_mem x hy)
    cases ho : rowOutcome gft query x with
    | keep x' fx =>
      simp only [List.cons_append, runRowsAux, ho] at hp
      rcases ih r post (j + 1) L lg _ e p hrest hro hp with h | ⟨y, hy, hye⟩
      · exact Or.inl h
      · exact Or.inr ⟨y, List.mem_cons_of_mem x hy, hye⟩
    | drop exc =>
      simp only [List.cons_append, runRowsAux, ho] at hp
      rcases ih r post (j + 1) _ _ _ e p hrest hro hp with h | ⟨y, hy, hye⟩
      · rcases ledgerSet_mem L (.ident x.ID) exc p h with h' | h'
        · exact Or.inl h'
        · exact Or.inr ⟨x, List.mem_cons_self x xs, h'⟩
      · exact Or.inr ⟨y, List.mem_cons_of_mem x hy, hye⟩
    | fatal e' => exact absurd ho (rowOutcome_ne_fatal gft query x hx e')

/-- Fetch events of an aborted run carry labels of rows strictly before
the fatal row. -/
theorem runRowsAux_fatal_fetches (gft : String → Except PyError (List (Int × Int)))
    (query : String → Ctx → Except String Series) :
    ∀ (pre : List StarRecord) (r : StarRecord) (post : List StarRecord)
      (j : Nat) (L : Ledger) (lg : List String) (ft : List (Nat × String)) (e : PyError)
      (p : Nat × String),
      (∀ x ∈ pre, ¬ fatalRow gft x) → rowOutcome gft query r = .fatal e →
      p ∈ (runRowsAux gft query (pre ++ r :: post) j L lg ft).fetches →
      p ∈ ft ∨ p.1 < j + pre.length := by
  intro pre
  induction pre with
  | nil =>
    intro r post j L lg ft e p _ hro hp
    simp only [List.nil_append, runRowsAux, hro] at hp
    exact Or.inl hp
  | cons x xs ih =>
    intro r post j L lg ft e p hpre hro hp
    have hx : ¬ fatalRow gft x := hpre x (List.mem_cons_self x xs)
    have hrest : ∀ y ∈ xs, ¬ fatalRow gft y := fun y hy => hpre y (List.mem_cons_of_mem x hy)
    cases ho : rowOutcome gft query x with
    | keep x' fx =>
      simp only [List.cons_append, runRowsAux, ho] at hp
      rcases ih r post (j + 1) L lg _ e p hrest hro hp with h | h
      · cases fx with
        | true =>
          simp only [if_pos] at h
          rcases List.mem_append.mp h with h' | h'
          · exact Or.inl h'
          · right
            rw [List.mem_singleton.mp h']
            simp only [List.length_cons]
            omega
        | false =>
          simp only [Bool.false_eq_true, if_false] at h
          exact Or.inl h
      · right; simp only [List.length_cons]; omega
    | drop exc =>
      simp only [List.cons_append, runRowsAux, ho] at hp
      rcases ih r post (j + 1) _ _ _ e p hrest hro hp with h | h
      · rcases List.mem_append.mp h with h' | h'
        · exact Or.inl h'
        · right
          rw [List.mem_singleton.mp h']
          simp only [List.length_cons]
          omega
      · right; simp only [List.length_cons]; omega
    | fatal e' => exact absurd ho (rowOutcome_ne_fatal gft query x hx e')

/-- Provenance of fetch events: every event in the output either was in
the input accumulator or belongs to a row of the batch that has a falsy
timeseries cell and no psd. -/
theorem runRowsAux_fetch_src (gft : String → Except PyError (List (Int × Int)))
    (query : String → Ctx → Except String Series) :
    ∀ (rows : List StarRecord) (j : Nat) (L : Ledger) (lg : List String)
      (ft : List (Nat × String)) (p : Nat × String),
      p ∈ (runRowsAux gft query rows j L lg ft).fetches →
      p ∈ ft ∨ ∃ k x, rows.get? k = some x ∧ p.1 = j + k ∧ fetchesRow x := by
  intro rows
  induction rows with
  | nil => intro j L lg ft p hp; exact Or.inl (by simpa [runRowsAux] using hp)
  | cons x xs ih =>
    intro j L lg ft p hp
    cases ho : rowOutcome gft query x with
    | keep x' fx =>
      simp only [runRowsAux, ho] at hp
      rcases ih (j + 1) L lg _ p hp with h | ⟨k, y, hk, hpk, hfy⟩
      · cases fx with
        | true =>
          simp only [if_pos] at h
          rcases List.mem_append.mp h with h' | h'
          · exact Or.inl h'
          · right
            refine ⟨0, x, by simp, ?_, rowOutcome_keep_fetch gft query x x' ho⟩
            rw [List.mem_singleton.mp h']
            omega
        | false =>
          simp only [Bool.false_eq_true, if_false] at h
          exact Or.inl h
      · right
        exact ⟨k + 1, y, by simpa using hk, by omega, hfy⟩
    | drop exc =>
      simp only [runRowsAux, ho] at hp
      rcases ih (j + 1) _ _ _ p hp with h | ⟨k, y, hk, hpk, hfy⟩
      · rcases List.mem_append.mp h with h' | h'
        · exact Or.inl h'
        · right
          refine ⟨0, x, by simp, ?_, rowOutcome_drop_fetch gft query x exc ho⟩
          rw [List.mem_singleton.mp h']
          omega
      · right
        exact ⟨k + 1, y, by simpa using hk, by omega, hfy⟩
    | fatal e =>
      simp only [runRowsAux, ho] at hp
      exact Or.inl hp

/-! ### Lemmas about the converter and driver stages -/

theorem lk_to_pg_ids (toPg : Series → Spectrum) :
    ∀ df : List (Nat × StarRecord),
      (lk_to_pg toPg df).map (fun p => p.2.ID) = df.map (fun p => p.2.ID) := by
  intro df
  induction df with
  | nil => rfl
  | cons p df ih =>
    simp only [lk_to_pg, List.map_cons] at ih ⊢
    rw [ih]
    cases hts : p.2.timeseries <;> simp [hts]

theorem mkStar_ID (path : Option String) (r : StarRecord) : (mkStar path r).ID = r.ID :=
  rfl

theorem jamCallLoop_attempted (fit : Star → FitCfg → Except PyExc Unit) (cfg : FitCfg) :
    ∀ (stars : List Star) (L : Ledger),
      (jamCallLoop fit cfg stars L).2.2.2 = stars.map (fun st => st.ID) := by
  intro stars
  induction stars with
  | nil => intro L; rfl
  | cons st rest ih =>
    intro L
    cases hf : fit st cfg with
    | ok u => simp [jamCallLoop, hf, ih]
    | error ex => simp [jamCallLoop, hf, ih]

/-- Every star of the session has its fit attempted, in order, no matter
which fits fail. -/
theorem jamCall_attempted (fit : Star → FitCfg → Except PyExc Unit) (cfg : FitCfg)
    (stars : List Star) (L : Ledger) :
    (jamCall fit cfg stars L).attempted = stars.map (fun st => st.ID) := by
  unfold jamCall
  exact jamCallLoop_attempted fit cfg stars L

/-- The Nyquist warning of a star with numax above its last frequency is
emitted, provided no earlier star has an empty frequency axis. -/
theorem nyquistWarnings_mem :
    ∀ (stars : List Star) (k : Nat) (st : Star) (nyq : Int),
      stars.get? k = some st → st.f.getLast? = some nyq → st.numax.1 > nyq →
      (∀ m st', m < k → stars.get? m = some st' → st'.f ≠ []) →
      nyquistMsg st.ID ∈ (nyquistWarnings stars).1 := by
  intro stars
  induction stars with
  | nil => intro k st nyq hk; simp at hk
  | cons x xs ih =>
    intro k st nyq hk hl hgt hpre
    cases k with
    | zero =>
      have hxst : x = st := by simpa using hk
      subst hxst
      simp only [nyquistWarnings, hl]
      rw [if_pos hgt]
      exact List.mem_cons_self _ _
    | succ k' =>
      have hk' : xs.get? k' = some st := by simpa using hk
      have hx0 : x.f ≠ [] := hpre 0 x (Nat.succ_pos k') (by simp)
      cases hl0 : x.f.getLast? with
      | none => exact absurd (List.getLast?_eq_none_iff.mp hl0) hx0
      | some n0 =>
        have hmem := ih k' st nyq hk' hl hgt
          (fun m st' hm hms => hpre (m + 1) st' (Nat.succ_lt_succ hm) (by simpa using hms))
        simp only [nyquistWarnings, hl0]
        by_cases hc : x.numax.1 > n0
        · rw [if_pos hc]; exact List.mem_cons_of_mem _ hmem
        · rw [if_neg hc]; exact hmem

theorem mentions_suffixed (a b : String) : mentions (a ++ b) b := by
  refine ⟨a.data, [], ?_⟩
  simp [String.data_append]

theorem nyquistMsg_mentions (id : String) : mentions (nyquistMsg id) id :=
  mentions_suffixed "Input numax is greater than Nyquist frequeny for " id

theorem fitMessage_mentions_ID (st : Star) (e : PyExc) :
    mentions (fitMessage st e) st.ID := by
  unfold fitMessage
  refine ⟨"Star ".data,
    (" produced an exception of type " ++ e.typeName ++ " occurred. Arguments:\n" ++
      argsRepr e.args).data, ?_⟩
  simp [String.data_append]

theorem fitMessage_mentions_type (st : Star) (e : PyExc) :
    mentions (fitMessage st e) e.typeName := by
  unfold fitMessage
  refine ⟨("Star " ++ st.ID ++ " produced an exception of type ").data,
    (" occurred. Arguments:\n" ++ argsRepr e.args).data, ?_⟩
  simp [String.data_append]

theorem queryFailMsg_mentions (id exc : String) : mentions (queryFailMsg id exc) id := by
  unfold queryFailMsg
  refine ⟨"Lightkurve query failed on ".data,
    (" due to:\n" ++ exc ++ "\nThis target will be removed from the sample.").data, ?_⟩
  simp [String.data_append]

theorem resetIndex_ids (d : List (Nat × StarRecord)) :
    (resetIndex d).map (fun p => p.2.ID) = d.map (fun p => p.2.ID) := by
  unfold resetIndex
  rw [show (fun p : Nat × StarRecord => p.2.ID) =
    (fun r : StarRecord => r.ID) ∘ Prod.snd from rfl]
  rw [← List.map_map, List.enum_map_snd, List.map_map]

theorem resetIndex_labels (d : List (Nat × StarRecord)) :
    (resetIndex d).map Prod.fst = List.range (resetIndex d).length := by
  unfold resetIndex
  rw [List.enum_map_fst, List.enum_length]

theorem afterSort_lightcurve (r : StarRecord) (c : Series) :
    afterSort { r with timeseries := .lightcurve c } =
      { r with timeseries := .lightcurve (sortSeries c) } := by
  rcases c with ⟨pts⟩
  unfold afterSort
  by_cases h : pts.isEmpty = true
  · have hnil : pts = [] := List.isEmpty_iff.mp h
    subst hnil
    rw [if_neg (by simp [truthyTS])]
    rfl
  · have hf : pts.isEmpty = false := Bool.eq_false_iff.mpr h
    rw [if_pos (by simp [truthyTS, hf])]
    rfl

theorem mem_resetIndex_of_mem (d : List (Nat × StarRecord)) (m : Nat) (x : StarRecord)
    (h : (m, x) ∈ d) : ∃ q ∈ resetIndex d, q.2 = x := by
  have hx : x ∈ d.map Prod.snd := List.mem_map.mpr ⟨(m, x), h, rfl⟩
  obtain ⟨n, hn⟩ := List.mem_iff_get?.mp hx
  refine ⟨(n, x), ?_, rfl⟩
  unfold resetIndex
  refine List.mk_mem_enum_iff_getElem?.mpr ?_
  rw [← List.get?_eq_getElem?]
  exact_mod_cast hn

/-! ### Claims -/

/-- C2: a row with an empty time-series field and no power spectrum whose
remote archive query raises is recorded exactly once in the ledger under
its identifier with the error message, the failure is logged, the row is
dropped from the resolved table and from the downstream converter and
driver stages, and every other row of the batch is resolved normally. -/
theorem C2_fetch_failure_isolated (gft : String → Except PyError (List (Int × Int)))
    (query : String → Ctx → Except String Series) (toPg : Series → Spectrum)
    (path : Option String) (pre post : List StarRecord) (r : StarRecord) (e : String)
    (hts : r.timeseries = .empty) (hpsd : r.psd = none)
    (hq : query r.ID (ctxOf r) = .error e)
    (hpre : ∀ x ∈ pre, benignRow x) (hpost : ∀ x ∈ post, benignRow x)
    (hid1 : r.ID ∉ pre.map (fun x => x.ID)) (hid2 : r.ID ∉ post.map (fun x => x.ID)) :
    (lc_to_lk gft query (pre ++ r :: post) []).2 = none ∧
    (lc_to_lk gft query (pre ++ r :: post) []).1.ledger = [(LedgerKey.ident r.ID, e)] ∧
    (lc_to_lk gft query (pre ++ r :: post) []).1.log = [queryFailMsg r.ID e] ∧
    (lc_to_lk gft query (pre ++ r :: post) []).1.df.map (fun p => p.2.ID) =
      pre.map (fun x => x.ID) ++ post.map (fun x => x.ID) ∧
    r.ID ∉ (lc_to_lk gft query (pre ++ r :: post) []).1.df.map (fun p => p.2.ID) ∧
    r.ID ∉ (lk_to_pg toPg (lc_to_lk gft query (pre ++ r :: post) []).1.df).map
      (fun p => p.2.ID) ∧
    r.ID ∉ ((lk_to_pg toPg (lc_to_lk gft query (pre ++ r :: post) []).1.df).map
      (fun p => mkStar path p.2)).map (fun st => st.ID) := by
  have hro : rowOutcome gft query r = .drop e := by
    simp [rowOutcome, hts, emptyOutcome, hpsd, hq]
  have hrun : runRowsAux gft query (pre ++ r :: post) 0 [] [] [] =
      ⟨afterSortDf pre 0 ++ afterSortDf post (pre.length + 1), [(.ident r.ID, e)],
        [queryFailMsg r.ID e], [(pre.length, r.ID)], none⟩ := by
    rw [runRowsAux_benign_front gft query pre (r :: post) 0 [] [] [] hpre]
    simp only [Nat.zero_add, runRowsAux, hro]
    rw [runRowsAux_benign gft query post (pre.length + 1) _ _ _ hpost]
    simp [ledgerSet]
  have hchar := lc_to_lk_char gft query (pre ++ r :: post) []
  rw [hrun] at hchar
  dsimp only at hchar
  have hids : (lc_to_lk gft query (pre ++ r :: post) []).1.df.map (fun p => p.2.ID) =
      pre.map (fun x => x.ID) ++ post.map (fun x => x.ID) := by
    rw [hchar]
    dsimp only
    rw [resetIndex_ids, List.map_append, afterSortDf_ids, afterSortDf_ids]
  have hnotmem : r.ID ∉ (lc_to_lk gft query (pre ++ r :: post) []).1.df.map
      (fun p => p.2.ID) := by
    rw [hids, List.mem_append]
    rintro (h | h)
    · exact hid1 h
    · exact hid2 h
  refine ⟨by rw [hchar], by rw [hchar], by rw [hchar], hids, hnotmem, ?_, ?_⟩
  · rw [lk_to_pg_ids]
    exact hnotmem
  · rw [List.map_map]
    show r.ID ∉ (lk_to_pg toPg (lc_to_lk gft query (pre ++ r :: post) []).1.df).map
      (fun p => p.2.ID)
    rw [lk_to_pg_ids]
    exact hnotmem

theorem C2_fetch_failure_isolated_witness :
    (lc_to_lk gft0 query0 [recPsd, recFail, recLc] []).2 = none ∧
    (lc_to_lk gft0 query0 [recPsd, recFail, recLc] []).1.ledger =
      [(LedgerKey.ident "B", "HTTPError: 404")] ∧
    (lc_to_lk gft0 query0 [recPsd, recFail, recLc] []).1.log =
      [queryFailMsg "B" "HTTPError: 404"] ∧
    (lc_to_lk gft0 query0 [recPsd, recFail, recLc] []).1.df.map (fun p => p.2.ID) =
      ["C"] ++ ["L"] ∧
    "B" ∉ (lc_to_lk gft0 query0 [recPsd, recFail, recLc] []).1.df.map
      (fun p => p.2.ID) ∧
    "B" ∉ (lk_to_pg (fun _ => []) (lc_to_lk gft0 query0 [recPsd, recFail, recLc] []).1.df).map
      (fun p => p.2.ID) ∧
    "B" ∉ ((lk_to_pg (fun _ => [])
        (lc_to_lk gft0 query0 [recPsd, recFail, recLc] []).1.df).map
      (fun p => mkStar none p.2)).map (fun st => st.ID) :=
  C2_fetch_failure_isolated gft0 query0 (fun _ => []) none [recPsd] [recLc] recFail
    "HTTPError: 404" rfl rfl rfl
    (by intro x hx; rw [List.mem_singleton.mp hx]; exact Or.inr ⟨rfl, rfl⟩)
    (by intro x hx; rw [List.mem_singleton.mp hx]
        exact Or.inl ⟨⟨[(2, 5), (1, 6)]⟩, rfl, rfl⟩)
    (by decide) (by decide)

/-- C4: dropping rows during resolution preserves the relative order of
the surviving rows (their identifier sequence is a subsequence of the
input identifier sequence), and after resolution the surviving table is
reindexed contiguously from zero. -/
theorem C4_order_preserved_reindexed (gft : String → Except PyError (List (Int × Int)))
    (query : String → Ctx → Except String Series) (rows : List StarRecord) (L0 : Ledger)
    (h : (lc_to_lk gft query rows L0).2 = none) :
    List.Sublist ((lc_to_lk gft query rows L0).1.df.map (fun p => p.2.ID))
      (rows.map (fun x => x.ID)) ∧
    (lc_to_lk gft query rows L0).1.df.map Prod.fst =
      List.range (lc_to_lk gft query rows L0).1.df.length := by
  have hchar := lc_to_lk_char gft query rows L0
  cases hexc : (runRowsAux gft query rows 0 L0 [] []).exc with
  | none =>
    rw [hchar]
    simp only [hexc]
    constructor
    · rw [resetIndex_ids]
      exact runRowsAux_kept_ids gft query rows 0 L0 [] []
    · exact resetIndex_labels _
  | some e =>
    rw [hchar] at h
    simp only [hexc] at h
    exact Option.noConfusion h

theorem C4_order_preserved_reindexed_witness :
    List.Sublist ((lc_to_lk gft0 query0 [recFile, recFail, recPsd] []).1.df.map
      (fun p => p.2.ID)) ([recFile, recFail, recPsd].map (fun x => x.ID)) ∧
    (lc_to_lk gft0 query0 [recFile, recFail, recPsd] []).1.df.map Prod.fst =
      List.range (lc_to_lk gft0 query0 [recFile, recFail, recPsd] []).1.df.length :=
  C4_order_preserved_reindexed gft0 query0 [recFile, recFail, recPsd] [] (by decide)

/-- C5: a row whose time series is a two-column numeric file resolves to
a series equal, as a collection of (time, flux) samples, to the file
contents with 1 added to every flux value, and the series is sorted
ascending by timestamp after resolution. -/
theorem C5_local_file_offset_sorted (gft : String → Except PyError (List (Int × Int)))
    (query : String → Ctx → Except String Series) (pre post : List StarRecord)
    (r : StarRecord) (pathf : String) (cols : List (Int × Int)) (L0 : Ledger)
    (hts : r.timeseries = .str pathf) (hg : gft pathf = .ok cols)
    (hnone : (lc_to_lk gft query (pre ++ r :: post) L0).2 = none) :
    (∃ q ∈ (lc_to_lk gft query (pre ++ r :: post) L0).1.df,
      q.2 = { r with
        timeseries := .lightcurve (sortSeries ⟨cols.map (fun c => (c.1, c.2 + 1))⟩) }) ∧
    List.Perm (sortSeries ⟨cols.map (fun c => (c.1, c.2 + 1))⟩).points
      (cols.map (fun c => (c.1, c.2 + 1))) ∧
    List.Sorted byTime (sortSeries ⟨cols.map (fun c => (c.1, c.2 + 1))⟩).points ∧
    List.Perm ((sortSeries ⟨cols.map (fun c => (c.1, c.2 + 1))⟩).points.map Prod.snd)
      (cols.map (fun c => c.2 + 1)) := by
  have hro : rowOutcome gft query r = .keep { r with
      timeseries := .lightcurve (sortSeries ⟨cols.map (fun c => (c.1, c.2 + 1))⟩) } false := by
    simp only [rowOutcome, hts, hg]
    rw [afterSort_lightcurve]
  have hchar := lc_to_lk_char gft query (pre ++ r :: post) L0
  have hexc : (runRowsAux gft query (pre ++ r :: post) 0 L0 [] []).exc = none := by
    rw [hchar] at hnone
    cases he : (runRowsAux gft query (pre ++ r :: post) 0 L0 [] []).exc with
    | none => rfl
    | some e =>
      simp only [he] at hnone
      exact hnone
  have hget : (pre ++ r :: post).get? pre.length = some r := by
    rw [List.get?_append_right (Nat.le_refl _)]
    simp
  have hmem := runRowsAux_mem_keep gft query (pre ++ r :: post) 0 L0 [] []
    pre.length r _ false hexc hget hro
  refine ⟨?_, List.perm_insertionSort byTime _, List.sorted_insertionSort byTime _, ?_⟩
  · rw [hchar]
    simp only [hexc]
    exact mem_resetIndex_of_mem _ _ _ hmem
  · have hperm := (List.perm_insertionSort byTime
      (cols.map (fun c => (c.1, c.2 + 1)))).map Prod.snd
    rw [List.map_map] at hperm
    exact hperm

theorem C5_local_file_offset_sorted_witness :
    (∃ q ∈ (lc_to_lk gft0 query0 [recFile] []).1.df,
      q.2 = { recFile with
        timeseries := .lightcurve (sortSeries ⟨[(3, 11), (1, 21)]⟩) }) ∧
    List.Perm (sortSeries ⟨[(3, 11), (1, 21)]⟩).points [(3, 11), (1, 21)] ∧
    List.Sorted byTime (sortSeries ⟨[(3, 11), (1, 21)]⟩).points ∧
    List.Perm ((sortSeries ⟨[(3, 11), (1, 21)]⟩).points.map Prod.snd) [11, 21] :=
  C5_local_file_offset_sorted gft0 query0 [] [] recFile "a.txt" [(3, 10), (1, 20)] []
    rfl (by simp [gft0]) (by decide)

/-- C6: for a row that already carries a power-spectrum value the
Resolver never invokes the remote archive query, whatever the shape of
its time-series field and of the rest of the batch. -/
theorem C6_psd_present_no_fetch (gft : String → Except PyError (List (Int × Int)))
    (query : String → Ctx → Except String Series) (rows : List StarRecord)
    (L0 : Ledger) (j : Nat) (r : StarRecord)
    (hj : rows.get? j = some r) (hpsd : r.psd.isSome = true) :
    ∀ p ∈ (lc_to_lk gft query rows L0).1.fetches, p.1 ≠ j := by
  intro p hp hpj
  have hchar := lc_to_lk_char gft query rows L0
  have hpf : p ∈ (runRowsAux gft query rows 0 L0 [] []).fetches := by
    rw [hchar] at hp
    cases he : (runRowsAux gft query rows 0 L0 [] []).exc with
    | none => simpa [he] using hp
    | some e => simpa [he] using hp
  rcases runRowsAux_fetch_src gft query rows 0 L0 [] [] p hpf with h | ⟨k, x, hk, hpk, hfx⟩
  · simp at h
  · rw [Nat.zero_add] at hpk
    rw [hpj] at hpk
    rw [← hpk] at hk
    rw [hj] at hk
    injection hk with hxr
    rw [← hxr] at hfx
    rw [hfx.2] at hpsd
    simp at hpsd

theorem C6_psd_present_no_fetch_witness :
    (0, "C") ∉ (lc_to_lk gft0 query0 [recPsd] []).1.fetches := fun hmem =>
  C6_psd_present_no_fetch gft0 query0 [recPsd] [] 0 recPsd rfl rfl (0, "C") hmem rfl

/-- C7: a resolved star whose numax exceeds the last (Nyquist) frequency
of its frequency axis triggers a non-fatal warning that references its
identifier, and its fit is still attempted by the Batch Driver. -/
theorem C7_nyquist_warning_fit_attempted (stars : List Star) (k : Nat) (st : Star)
    (nyq : Int) (fit : Star → FitCfg → Except PyExc Unit) (cfg : FitCfg) (L : Ledger)
    (hk : stars.get? k = some st) (hl : st.f.getLast? = some nyq)
    (hgt : st.numax.1 > nyq)
    (hne : ∀ m st', m < k → stars.get? m = some st' → st'.f ≠ []) :
    nyquistMsg st.ID ∈ (nyquistWarnings stars).1 ∧
    mentions (nyquistMsg st.ID) st.ID ∧
    st.ID ∈ (jamCall fit cfg stars L).attempted := by
  refine ⟨nyquistWarnings_mem stars k st nyq hk hl hgt hne,
    nyquistMsg_mentions st.ID, ?_⟩
  rw [jamCall_attempted]
  exact List.mem_map.mpr ⟨st, List.get?_mem hk, rfl⟩

theorem C7_nyquist_warning_fit_attempted_witness :
    nyquistMsg "X" ∈ (nyquistWarnings [starHot]).1 ∧
    mentions (nyquistMsg "X") "X" ∧
    "X" ∈ (jamCall fitC cfg0 [starHot] []).attempted :=
  C7_nyquist_warning_fit_attempted [starHot] 0 starHot 1 fitC cfg0 [] rfl rfl
    (by decide) (fun m st' hm _ => absurd hm (Nat.not_lt_zero m))

/-- C8: a row with a truthy time-series value that is neither a path
string nor a lightcurve object raises an uncaught TypeError: the batch
aborts, the failure is not recorded in the ledger under the identifier
of that row, and no fetch is performed at or after that row. -/
theorem C8_unrecognized_series_aborts (gft : String → Except PyError (List (Int × Int)))
    (query : String → Ctx → Except String Series) (pre post : List StarRecord)
    (r : StarRecord)
    (hts : r.timeseries = .other)
    (hpre : ∀ x ∈ pre, ¬ fatalRow gft x)
    (hid : r.ID ∉ pre.map (fun x => x.ID)) :
    (lc_to_lk gft query (pre ++ r :: post) []).2 =
      some (.typeError "Can\x27t handle this type of time series object") ∧
    (∀ p ∈ (lc_to_lk gft query (pre ++ r :: post) []).1.ledger,
      p.1 ≠ LedgerKey.ident r.ID) ∧
    (∀ p ∈ (lc_to_lk gft query (pre ++ r :: post) []).1.fetches, p.1 < pre.length) := by
  have hro : rowOutcome gft query r =
      .fatal (.typeError "Can\x27t handle this type of time series object") := by
    simp [rowOutcome, hts]
  have hchar := lc_to_lk_char gft query (pre ++ r :: post) []
  have hexc := runRowsAux_fatal_exc gft query pre r post 0 [] [] []
    (.typeError "Can\x27t handle this type of time series object") hpre hro
  refine ⟨?_, ?_, ?_⟩
  · rw [hchar]
    simp [hexc]
  · intro p hp hpe
    rw [hchar] at hp
    simp only [hexc] at hp
    rcases runRowsAux_fatal_ledger gft query pre r post 0 [] [] []
      (.typeError "Can\x27t handle this type of time series object") p hpre hro hp with
      h | ⟨x, hx, hxe⟩
    · simp at h
    · rw [hpe] at hxe
      injection hxe with hre
      exact hid (by rw [hre]; exact List.mem_map.mpr ⟨x, hx, rfl⟩)
  · intro p hp
    rw [hchar] at hp
    simp only [hexc] at hp
    rcases runRowsAux_fatal_fetches gft query pre r post 0 [] [] []
      (.typeError "Can\x27t handle this type of time series object") p hpre hro hp with
      h | h
    · simp at h
    · simpa using h

theorem C8_unrecognized_series_aborts_witness :
    (lc_to_lk gft0 query0 [recPsd, recOther] []).2 =
      some (.typeError "Can\x27t handle this type of time series object") ∧
    LedgerKey.ident "O" ∉
      (lc_to_lk gft0 query0 [recPsd, recOther] []).1.ledger.map Prod.fst ∧
    (1, "O") ∉ (lc_to_lk gft0 query0 [recPsd, recOther] []).1.fetches := by
  have h := C8_unrecognized_series_aborts gft0 query0 [recPsd] [] recOther rfl
    (by
      intro x hx
      rw [List.mem_singleton.mp hx]
      rintro (hc | ⟨pathf, pe, hc, _⟩) <;> simp [recPsd, mkRec] at hc)
    (by decide)
  refine ⟨h.1, ?_, ?_⟩
  · intro hm
    obtain ⟨p, hp, hpe⟩ := List.mem_map.mp hm
    exact h.2.1 p hp hpe
  · intro hm
    exact absurd (h.2.2 (1, "O") hm) (by decide)

/-- C9: a row whose time-series field is a file path on which the file
load raises propagates the exception out of the Resolver: the batch
aborts, nothing is recorded in the ledger for that row, and no fetch is
performed at or after it — file-load failures are not isolated the way
remote-fetch failures are. -/
theorem C9_file_load_failure_aborts (gft : String → Except PyError (List (Int × Int)))
    (query : String → Ctx → Except String Series) (pre post : List StarRecord)
    (r : StarRecord) (pathf : String) (pe : PyError)
    (hts : r.timeseries = .str pathf) (hg : gft pathf = .error pe)
    (hpre : ∀ x ∈ pre, ¬ fatalRow gft x)
    (hid : r.ID ∉ pre.map (fun x => x.ID)) :
    (lc_to_lk gft query (pre ++ r :: post) []).2 = some pe ∧
    (∀ p ∈ (lc_to_lk gft query (pre ++ r :: post) []).1.ledger,
      p.1 ≠ LedgerKey.ident r.ID) ∧
    (∀ p ∈ (lc_to_lk gft query (pre ++ r :: post) []).1.fetches, p.1 < pre.length) := by
  have hro : rowOutcome gft query r = .fatal pe := by
    simp [rowOutcome, hts, hg]
  have hchar := lc_to_lk_char gft query (pre ++ r :: post) []
  have hexc := runRowsAux_fatal_exc gft query pre r post 0 [] [] [] pe hpre hro
  refine ⟨?_, ?_, ?_⟩
  · rw [hchar]
    simp [hexc]
  · intro p hp hpe'
    rw [hchar] at hp
    simp only [hexc] at hp
    rcases runRowsAux_fatal_ledger gft query pre r post 0 [] [] [] pe p hpre hro hp with
      h | ⟨x, hx, hxe⟩
    · simp at h
    · rw [hpe'] at hxe
      injection hxe with hre
      exact hid (by rw [hre]; exact List.mem_map.mpr ⟨x, hx, rfl⟩)
  · intro p hp
    rw [hchar] at hp
    simp only [hexc] at hp
    rcases runRowsAux_fatal_fetches gft query pre r post 0 [] [] [] pe p hpre hro hp with
      h | h
    · simp at h
    · simpa using h

theorem C9_file_load_failure_aborts_witness :
    (lc_to_lk gft0 query0 [recBadFile, recPsd] []).2 =
      some (.ioError "bad.txt not found") ∧
    LedgerKey.ident "F" ∉
      (lc_to_lk gft0 query0 [recBadFile, recPsd] []).1.ledger.map Prod.fst ∧
    (0, "F") ∉ (lc_to_lk gft0 query0 [recBadFile, recPsd] []).1.fetches := by
  have h := C9_file_load_failure_aborts gft0 query0 [] [recPsd] recBadFile "bad.txt"
    (.ioError "bad.txt not found") rfl (by simp [gft0])
    (fun x hx => absurd hx (List.not_mem_nil x)) (by simp)
  refine ⟨h.1, ?_, ?_⟩
  · intro hm
    obtain ⟨p, hp, hpe⟩ := List.mem_map.mp hm
    exact h.2.1 p hp hpe
  · intro hm
    exact absurd (h.2.2 (0, "F") hm) (by decide)

/-- C1: evaluation of the Batch Driver on a five-star batch in which
only the fit of star C raises.  The other four stars complete (their
slots are released), every star is attempted and the call returns
normally; the console message names star C, the exception type and its
arguments; but the ledger entry is written at the key denoted by the
bare name `id` — the Python builtin — and no entry keyed by the
identifier C exists.  This contradicts the claim (and matches the bug
the spec design notes flag in the fitting-failure handler). -/
theorem C1_fit_failure_ledger_miskeyed :
    (jamCall fitC cfg0 stars5 []).ledger = [(LedgerKey.builtinId, "boom")] ∧
    LedgerKey.ident "C" ∉ (jamCall fitC cfg0 stars5 []).ledger.map Prod.fst ∧
    (jamCall fitC cfg0 stars5 []).log = [fitMessage (starOk "C") exC] ∧
    mentions (fitMessage (starOk "C") exC) "C" ∧
    mentions (fitMessage (starOk "C") exC) "ValueError" ∧
    (jamCall fitC cfg0 stars5 []).attempted = ["A", "B", "C", "D", "E"] ∧
    (jamCall fitC cfg0 stars5 []).stars =
      [none, none, some (starOk "C"), none, none] := by
  refine ⟨by decide, by decide, rfl, fitMessage_mentions_ID (starOk "C") exC,
    fitMessage_mentions_type (starOk "C") exC, by decide, by decide⟩

/-- C3: the session constructor, handed a tabular input of an accepted
runtime type that `pandas.DataFrame.from_records` rejects with a
TypeError, prints the report message — and then construction dies with an
uncaught UnboundLocalError at the next use of the never-bound table,
contradicting the claim that no unhandled error escapes beyond the
reported message. -/
theorem C3_unsupported_dictlike_reported_then_crash :
    jamInit extFail (some (.dict 0)) none none none none none none [] =
      ⟨.error .unboundLocalError, [], [unrecognizedMsg], [], []⟩ := rfl

/-- C10: with a dictlike argument whose runtime type is none of the four
accepted kinds and no identifier parameter, no branch of the constructor
binds the table; construction fails with an uncaught UnboundLocalError
(a name-resolution error), with no message logged and no warning
emitted, whatever the other parameters and the external collaborators
are. -/
theorem C10_unbound_table_name_error (ext : Ext) (numax dnu teff bp_rp : Option Int)
    (path : Option String) (L0 : Ledger) :
    jamInit ext (some .other) none numax dnu teff bp_rp path L0 =
      ⟨.error .unboundLocalError, L0, [], [], []⟩ := rfl

end JamSession
